import Mathlib

/-!
Shallow embedding of pybird.py (class PyBird): the BIRD control-socket
response parser.  Pure Python string/date operations are modelled on
List Char / Nat; every Python exception that can escape a function is
modelled as an explicit error value of type PyErr.  The socket transport
is external: functions that in Python read from the socket take the raw
response text as an argument.
-/

namespace Pybird

/-! ### Character and string helpers (Python str semantics, ASCII) -/

/-- Python str.isspace characters relevant to str.strip and str.split. -/
def pyIsSpace (c : Char) : Bool :=
  c = ' ' || c = '\t' || c = '\n' || c = '\x0d' || c = '\x0b' || c = '\x0c'

/-- ASCII decimal digit, the class matched by the regex \d on a Python 2 str. -/
def isDigitChar (c : Char) : Bool :=
  '0' ≤ c && c ≤ '9'

/-- ASCII word character, the class \w of Python 2 re on str; \W is its complement. -/
def isWordChar (c : Char) : Bool :=
  ('a' ≤ c && c ≤ 'z') || ('A' ≤ c && c ≤ 'Z') || isDigitChar c || c = '_'

/-- Python str.lower on one ASCII character. -/
def pyLowerChar (c : Char) : Char :=
  if 'A' ≤ c && c ≤ 'Z' then Char.ofNat (c.toNat + 32) else c

/-- Numeric value of a run of decimal digits. -/
def digitsToNat (cs : List Char) : Nat :=
  cs.foldl (fun a c => 10 * a + (c.toNat - '0'.toNat)) 0

/-- Python str.strip on a character list: drop whitespace from both ends. -/
def stripL (cs : List Char) : List Char :=
  ((cs.dropWhile pyIsSpace).reverse.dropWhile pyIsSpace).reverse

/-- Python str.strip. -/
def pyStrip (s : String) : String :=
  ⟨stripL s.data⟩

/-- Python str.lower. -/
def pyLower (s : String) : String :=
  ⟨s.data.map pyLowerChar⟩

/-- Python str.split with no argument: split on runs of whitespace,
    dropping empty pieces.  acc holds the characters of the token currently
    being read, in reverse. -/
def wsSplitGo (acc : List Char) : List Char → List (List Char)
  | [] => if acc.isEmpty then [] else [acc.reverse]
  | c :: cs =>
    if pyIsSpace c then
      if acc.isEmpty then wsSplitGo [] cs else acc.reverse :: wsSplitGo [] cs
    else wsSplitGo (c :: acc) cs

def wsSplitL (cs : List Char) : List (List Char) :=
  wsSplitGo [] cs

/-- Python str.split with no argument, on String. -/
def wsSplitS (s : String) : List String :=
  (wsSplitL s.data).map (fun l => ⟨l⟩)

/-- Split a character list on every occurrence of one character
    (Python str.split with a one-character separator). -/
def splitChGo (sep : Char) (acc : List Char) : List Char → List (List Char)
  | [] => [acc.reverse]
  | c :: cs => if c = sep then acc.reverse :: splitChGo sep [] cs else splitChGo sep (c :: acc) cs

def splitCh (sep : Char) (cs : List Char) : List (List Char) :=
  splitChGo sep [] cs

/-- Python line.split(sep, 1) restricted to what the code needs: split at the
    first colon, or none when the line has no colon (in which case the Python
    two-variable unpacking raises ValueError). -/
def splitOnceColon : List Char → Option (List Char × List Char)
  | [] => none
  | c :: cs =>
    if c = ':' then some ([], cs)
    else match splitOnceColon cs with
         | none => none
         | some (a, b) => some (c :: a, b)

/-- Python str.splitlines: accumulator pass recognising \n, \r\n and \r,
    with no empty trailing line for input ending in a line break.  A line
    was already emitted when its \x0d terminator was seen, so crPending
    marks that an immediately following \n belongs to the same \x0d\n break
    and is skipped. -/
def splitLinesGo (crPending : Bool) (acc : List Char) : List Char → List (List Char)
  | [] => if acc.isEmpty then [] else [acc.reverse]
  | c :: cs =>
    if crPending && c = '\n' then splitLinesGo false [] cs
    else if c = '\x0d' then acc.reverse :: splitLinesGo true [] cs
    else if c = '\n' then acc.reverse :: splitLinesGo false [] cs
    else splitLinesGo false (c :: acc) cs

/-- Python str.splitlines on String. -/
def splitLinesS (s : String) : List String :=
  (splitLinesGo false [] s.data).map (fun l => ⟨l⟩)

/-- Python int(s) for a str argument: optional surrounding whitespace,
    optional sign, then a nonempty run of decimal digits; anything else
    raises ValueError, modelled as none. -/
def pyInt? (s : String) : Option Int :=
  match stripL s.data with
  | [] => none
  | c :: ds =>
    if c = '+' then
      if ds ≠ [] ∧ ds.all isDigitChar then some (digitsToNat ds) else none
    else if c = '-' then
      if ds ≠ [] ∧ ds.all isDigitChar then some (-(digitsToNat ds : Int)) else none
    else if (c :: ds).all isDigitChar then some (digitsToNat (c :: ds)) else none

/-- A non-negative decimal integer literal: nonempty, digits only. -/
def decLit? (s : String) : Option Int :=
  if s.data ≠ [] ∧ s.data.all isDigitChar then some (digitsToNat s.data) else none

/-! ### Dates (python datetime, restricted to what the code constructs) -/

/-- The fields of a python datetime that pybird ever reads or builds
    (second and microsecond are always zero in this code). -/
structure DateTime where
  year : Nat
  month : Nat
  day : Nat
  hour : Nat
  minute : Nat
deriving DecidableEq, Repr

/-- Gregorian leap year, as used by python datetime. -/
def isLeap (y : Nat) : Bool :=
  y % 4 = 0 && (y % 100 ≠ 0 || y % 400 = 0)

def daysInMonth (y m : Nat) : Nat :=
  if m = 2 then (if isLeap y then 29 else 28)
  else if m = 4 || m = 6 || m = 9 || m = 11 then 30
  else 31

/-! ### Errors: python exceptions that can escape the parsing code -/

/-- Each constructor stands for one distinct raise site and message family:
    indexError for "IndexError: list index out of range";
    valueUnpack n for the ValueError raised when unpacking a sequence of
    length n into the wrong number of variables;
    valueInvalidInt tok for "ValueError: invalid literal for int()...";
    valueCannotParseDatetime tok for the explicitly raised
    "ValueError: Can not parse datetime: [tok]";
    valueNotOnePeer for the explicitly raised
    "ValueError: Searched for a specific peer, but got multiple returned from BIRD?";
    typeTimedeltaYears for the TypeError raised by timedelta(years=1),
    since datetime.timedelta accepts no years keyword;
    stopIteration for a StopIteration escaping from lineiterator.next();
    attributeError for the AttributeError raised by peers.append_peer_summary(),
    an attribute a python list does not have;
    overflowError for dates pushed below datetime.min by subtraction. -/
inductive PyErr where
  | indexError
  | valueUnpack (got : Nat)
  | valueInvalidInt (tok : String)
  | valueCannotParseDatetime (tok : String)
  | valueNotOnePeer
  | typeTimedeltaYears
  | stopIteration
  | attributeError
  | overflowError
deriving DecidableEq, Repr

/-- result_date - timedelta(days=1): date decrement with rollover;
    going below datetime.min (year 1) raises OverflowError. -/
def minusOneDay (dt : DateTime) : Except PyErr DateTime :=
  if dt.day > 1 then .ok { dt with day := dt.day - 1 }
  else if dt.month > 1 then
    .ok { dt with month := dt.month - 1, day := daysInMonth dt.year (dt.month - 1) }
  else if dt.year > 1 then
    .ok { dt with year := dt.year - 1, month := 12, day := 31 }
  else .error .overflowError

/-! ### _calculate_datetime -/

/-- datetime.strptime(value, "%H:%M").  The anchored regex used by strptime is
    (2[0-3]|[0-1]\d|\d):([0-5]\d|\d) over the whole string, which is exactly:
    two pieces separated by a single colon, each a run of one or two decimal
    digits, with values at most 23 and 59. -/
def parseHHMM (s : String) : Option (Nat × Nat) :=
  match splitCh ':' s.data with
  | [hs, ms] =>
    if hs ≠ [] && hs.length ≤ 2 && hs.all isDigitChar && digitsToNat hs ≤ 23 &&
       ms ≠ [] && ms.length ≤ 2 && ms.all isDigitChar && digitsToNat ms ≤ 59
    then some (digitsToNat hs, digitsToNat ms)
    else none
  | _ => none

def monthAbbrevs : List (String × Nat) :=
  [("jan", 1), ("feb", 2), ("mar", 3), ("apr", 4), ("may", 5), ("jun", 6),
   ("jul", 7), ("aug", 8), ("sep", 9), ("oct", 10), ("nov", 11), ("dec", 12)]

/-- datetime.strptime("1996 " ++ value, "%Y %b%d"): a case-insensitive
    three-letter month abbreviation, then a day of one or two digits with
    value 1..31 (the %d regex is 3[01]|[12]\d|0[1-9]|[1-9]), and the day must
    exist in that month of the reference leap year 1996, since strptime
    builds a date to validate the combination. -/
def parseMonthDay (s : String) : Option (Nat × Nat) :=
  let ls := (pyLower s).data
  monthAbbrevs.findSome? fun p =>
    if p.1.data.isPrefixOf ls then
      let rest := ls.drop 3
      let d := digitsToNat rest
      if rest ≠ [] && rest.length ≤ 2 && rest.all isDigitChar &&
         1 ≤ d && d ≤ 31 && d ≤ daysInMonth 1996 p.2
      then some (p.2, d)
      else none
    else none

/-- The final fallback of _calculate_datetime: int(value) then
    datetime(year, 1, 1); any ValueError (non-integer token, or a year
    outside 1..9999 rejected by the datetime constructor) is caught and
    re-raised as the explicit can-not-parse ValueError. -/
def plainYear (value : String) : Except PyErr DateTime :=
  match pyInt? value with
  | some y =>
    if 1 ≤ y && y ≤ 9999 then .ok ⟨y.toNat, 1, 1, 0, 0⟩
    else .error (.valueCannotParseDatetime value)
  | none => .error (.valueCannotParseDatetime value)

/-- PyBird._calculate_datetime(value), with datetime.now() passed explicitly.
    Case 1: an HH:MM token becomes that time on the date of now, minus one
    day when now.hour <= hour and now.minute < minute (the condition exactly
    as written in the source).
    Case 2: a month-day token becomes that month and day in the year of now;
    datetime(now.year, month, day) can raise ValueError (Feb 29 in a non-leap
    current year), which is caught and falls through to case 3; when
    now.month <= month and now.day < day the source evaluates
    result_date - timedelta(years=1), and timedelta has no years keyword, so
    a TypeError escapes.
    Case 3: a plain integer year. -/
def _calculate_datetime (now : DateTime) (value : String) : Except PyErr DateTime :=
  match parseHHMM value with
  | some (h, mi) =>
    let rd : DateTime := ⟨now.year, now.month, now.day, h, mi⟩
    if now.hour ≤ h && now.minute < mi then minusOneDay rd else .ok rd
  | none =>
    match parseMonthDay value with
    | some (m, d) =>
      if d ≤ daysInMonth now.year m then
        if now.month ≤ m && now.day < d then .error .typeTimedeltaYears
        else .ok ⟨now.year, m, d, 0, 0⟩
      else plainYear value
    | none => plainYear value

/-! ### Python dict values and dict operations -/

/-- The value types that ever appear in the dicts built by pybird. -/
inductive PyVal where
  | vInt (i : Int)
  | vStr (s : String)
  | vBool (b : Bool)
  | vDateTime (d : DateTime)
  | vNone
deriving DecidableEq, Repr

/-- A python dict with string keys, modelled as an association list where
    assignment replaces an existing binding in place or appends a new one. -/
abbrev Dict := List (String × PyVal)

def dictGet (d : Dict) (k : String) : Option PyVal :=
  match d with
  | [] => none
  | p :: rest => if p.1 = k then some p.2 else dictGet rest k

def dictSet (d : Dict) (k : String) (v : PyVal) : Dict :=
  match d with
  | [] => [(k, v)]
  | p :: rest => if p.1 = k then (k, v) :: rest else p :: dictSet rest k v

/-- python dict.update: assign every binding of src into d, in order. -/
def dictUpdate (d : Dict) (src : Dict) : Dict :=
  src.foldl (fun acc p => dictSet acc p.1 p.2) d

/-! ### _clean_input and _extract_field_number -/

/-- PyBird._clean_input: re.sub of the pattern \W+ with the empty string
    removes every non-word character (so only [A-Za-z0-9_] remains), then
    str.strip removes surrounding whitespace. -/
def _clean_input (input : String) : String :=
  pyStrip ⟨input.data.filter isWordChar⟩

/-- The ignore list [0001, 2002, 0000] of the source: the first and last
    literals are python 2 octal notation, with values 1 and 0. -/
def ignoredFieldNumbers : List Nat := [1, 2002, 0]

/-- PyBird._extract_field_number: the regex ^(\d+)[ -] matches exactly when
    the line starts with a nonempty digit run whose following character is a
    space or dash; re.sub then removes the digits and that one separator. -/
def _extract_field_number (line : String) : Option Nat × String :=
  let ds := line.data.takeWhile isDigitChar
  match line.data.drop ds.length with
  | c :: rest =>
    if ds ≠ [] && (c = ' ' || c = '-') then (some (digitsToNat ds), ⟨rest⟩)
    else (none, line)
  | [] => (none, line)

/-! ### _parse_peer_summary -/

/-- PyBird._parse_peer_summary, with datetime.now() passed explicitly.
    elements[5] is read inside try/except IndexError, giving state = None and
    up = None for a five-column line; elements[4] (the timestamp column) and
    elements[0], elements[1] are read unprotected, so a line of fewer than
    five columns raises IndexError.  The result dict is built in the literal
    order of the source: name, protocol, last_change, state, up. -/
def _parse_peer_summary (now : DateTime) (line : String) : Except PyErr Dict :=
  match wsSplitS line with
  | name :: protocol :: _ :: _ :: ts :: rest =>
    let state : PyVal := match rest.head? with
      | some st => .vStr st
      | none => .vNone
    let up : PyVal := match rest.head? with
      | some st => .vBool (pyLower st = "established")
      | none => .vNone
    match _calculate_datetime now ts with
    | .error e => .error e
    | .ok lc =>
      .ok [("name", .vStr name), ("protocol", .vStr protocol),
           ("last_change", .vDateTime lc), ("state", state), ("up", up)]
  | _ => .error .indexError

/-! ### _parse_peer_detail and _parse_route_stats -/

/-- PyBird._parse_route_stats: a placeholder token contributes nothing, any
    other token must satisfy int() and is assigned under the given key. -/
def _parse_route_stats (result : Dict) (key : String) (value : String) : Except PyErr Dict :=
  if pyStrip value = "---" then .ok result
  else match pyInt? value with
       | some v => .ok (dictSet result key (.vInt v))
       | none => .error (.valueInvalidInt value)

/-- The five sequential _parse_route_stats calls of the route-churn branch,
    each able to raise, threading the result dict. -/
def processChurnValues (result : Dict) (base : String)
    (received rejected filtered ignored accepted : String) : Except PyErr Dict :=
  match _parse_route_stats result (base ++ "_received") received with
  | .error e => .error e
  | .ok d1 =>
  match _parse_route_stats d1 (base ++ "_rejected") rejected with
  | .error e => .error e
  | .ok d2 =>
  match _parse_route_stats d2 (base ++ "_filtered") filtered with
  | .error e => .error e
  | .ok d3 =>
  match _parse_route_stats d3 (base ++ "_ignored") ignored with
  | .error e => .error e
  | .ok d4 => _parse_route_stats d4 (base ++ "_accepted") accepted

/-- The route-churn branch of _parse_peer_detail: value.split() must unpack
    into exactly five variables, else ValueError. -/
def churnRowStep (result : Dict) (base : String) (value : String) : Except PyErr Dict :=
  match wsSplitS value with
  | [t0, t1, t2, t3, t4] => processChurnValues result base t0 t1 t2 t3 t4
  | l => .error (.valueUnpack l.length)

/-- One attempt of the regex (\d+) imported, (\d+) exported at the head of a
    character list.  The digit runs are maximal, which agrees with the regex
    because each \d+ is followed by a literal space. -/
def routesMatchAt (cs : List Char) : Option (Nat × Nat) :=
  let ds1 := cs.takeWhile isDigitChar
  if ds1 = [] then none
  else
    let r1 := cs.drop ds1.length
    if " imported, ".data.isPrefixOf r1 then
      let r2 := r1.drop 11
      let ds2 := r2.takeWhile isDigitChar
      if ds2 = [] then none
      else if " exported".data.isPrefixOf (r2.drop ds2.length) then
        some (digitsToNat ds1, digitsToNat ds2)
      else none
    else none

/-- Unanchored regex search, as performed by findall: try every start
    position from the left and return the first match. -/
def routesSearch : List Char → Option (Nat × Nat)
  | [] => none
  | c :: cs =>
    match routesMatchAt (c :: cs) with
    | some r => some r
    | none => routesSearch cs

/-- The routes branch of _parse_peer_detail: findall(...)[0] on an empty
    match list raises IndexError; a match assigns the two captured groups. -/
def routesStep (result : Dict) (value : String) : Except PyErr Dict :=
  match routesSearch value.data with
  | none => .error .indexError
  | some (a, b) =>
    .ok (dictSet (dictSet result "routes_imported" (.vInt a)) "routes_exported" (.vInt b))

def routeChangeFields : List String :=
  ["import updates", "import withdraws", "export updates", "export withdraws"]

/-- One iteration of the _parse_peer_detail loop: strip the line, split on
    the first colon (two-variable unpacking raises ValueError when the line
    has no colon), strip the value, and dispatch on the lower-cased field.
    The three if statements of the source are sequential but their
    conditions are mutually exclusive. -/
def processDetailLine (result : Dict) (line : String) : Except PyErr Dict :=
  match splitOnceColon (pyStrip line).data with
  | none => .error (.valueUnpack 1)
  | some (fcs, vcs) =>
    let field := pyLower ⟨fcs⟩
    let value := pyStrip ⟨vcs⟩
    if field = "routes" then routesStep result value
    else if field ∈ routeChangeFields then
      churnRowStep result (⟨field.data.map (fun c => if c = ' ' then '_' else c)⟩) value
    else if field = "neighbor id" then .ok (dictSet result "router_id" (.vStr value))
    else .ok result

/-- PyBird._parse_peer_detail: fold the line handler over the block,
    propagating the first exception. -/
def _parse_peer_detail (peer_detail_raw : List String) : Except PyErr Dict :=
  go [] peer_detail_raw
where
  go (result : Dict) : List String → Except PyErr Dict
    | [] => .ok result
    | l :: ls =>
      match processDetailLine result l with
      | .error e => .error e
      | .ok d => go d ls

/-! ### _parse_peer_data (orchestrator) -/

/-- The two positions of the source loop: scanning for field-coded lines
    (with a possibly pending BGP summary), or inside the inner while loop
    that drains a detail block from the shared line iterator with
    lineiterator.next().  blkRev holds the block lines collected so far, in
    reverse. -/
inductive LoopState where
  | scanning (pending : Option Dict)
  | inBlock (pending : Dict) (blkRev : List String)

/-- One pass over the response lines.  The nested while of the source shares
    the line iterator with the for loop, so it is rendered as an explicit
    state on the same single traversal.  Reaching the end of the lines while
    inside a block is the unguarded lineiterator.next() call of the source
    raising StopIteration, which no caller catches.
    In scanning position the source order is: strip; extract field number;
    skip ignored codes; on code 1002 parse the summary, dropping it when its
    protocol is not BGP; then, when data_contains_detail is false, evaluate
    peers.append_peer_summary(), an AttributeError on a python list; on code
    1006 with a pending summary start draining the block (an immediately
    blank cleaned line gives an empty block, which is parsed and merged at
    once); any other line falls through. -/
def parseLoop (now : DateTime) (flag : Bool) :
    List String → LoopState → List Dict → Except PyErr (List Dict)
  | [], .scanning _, acc => .ok acc
  | [], .inBlock _ _, _ => .error .stopIteration
  | l :: rest, .inBlock ps blkRev, acc =>
    if pyStrip l = "" then
      match _parse_peer_detail blkRev.reverse with
      | .error e => .error e
      | .ok det => parseLoop now flag rest (.scanning none) (acc ++ [dictUpdate det ps])
    else parseLoop now flag rest (.inBlock ps (l :: blkRev)) acc
  | l :: rest, .scanning pending, acc =>
    if (match (_extract_field_number (pyStrip l)).1 with
        | some n => ignoredFieldNumbers.contains n | none => false) then
      parseLoop now flag rest (.scanning pending) acc
    else if (_extract_field_number (pyStrip l)).1 = some 1002 then
      match _parse_peer_summary now (_extract_field_number (pyStrip l)).2 with
      | .error e => .error e
      | .ok ps =>
        if dictGet ps "protocol" = some (.vStr "BGP") then
          if flag then parseLoop now flag rest (.scanning (some ps)) acc
          else .error .attributeError
        else parseLoop now flag rest (.scanning none) acc
    else if !flag then .error .attributeError
    else if (_extract_field_number (pyStrip l)).1 = some 1006 then
      match pending with
      | none => parseLoop now flag rest (.scanning none) acc
      | some ps =>
        if pyStrip (_extract_field_number (pyStrip l)).2 = "" then
          match _parse_peer_detail [] with
          | .error e => .error e
          | .ok det => parseLoop now flag rest (.scanning none) (acc ++ [dictUpdate det ps])
        else parseLoop now flag rest (.inBlock ps [(_extract_field_number (pyStrip l)).2]) acc
    else parseLoop now flag rest (.scanning pending) acc

/-- PyBird._parse_peer_data, with datetime.now() passed explicitly and the
    response text as data. -/
def _parse_peer_data (now : DateTime) (data : String) (data_contains_detail : Bool) :
    Except PyErr (List Dict) :=
  parseLoop now data_contains_detail (splitLinesS data) (.scanning none) []

/-! ### get_peer_status -/

/-- The command string sent to the daemon; an empty peer name is falsy in
    python and selects the all-peers query. -/
def build_query (peer_name : Option String) : String :=
  match peer_name with
  | some s => if s ≠ "" then "show protocols all \"" ++ _clean_input s ++ "\""
              else "show protocols all"
  | none => "show protocols all"

/-- A python value that is either the list of peers or a single peer dict. -/
inductive QueryResult where
  | all (peers : List Dict)
  | one (peer : Dict)
deriving DecidableEq, Repr

/-- PyBird.get_peer_status, with the transport externalised: data is the
    text the daemon answered to the built query.  Without a (nonempty) peer
    name the parsed list is returned; with one, exactly one parsed peer is
    required and returned bare, any other count raising the explicit
    ValueError. -/
def get_peer_status (now : DateTime) (data : String) (peer_name : Option String) :
    Except PyErr QueryResult :=
  let hasName : Bool := match peer_name with | some s => s ≠ "" | none => false
  match _parse_peer_data now data true with
  | .error e => .error e
  | .ok peers =>
    if hasName then
      match peers with
      | [p] => .ok (.one p)
      | _ => .error .valueNotOnePeer
    else .ok (.all peers)

/-! ## General lemmas about the helpers -/

theorem word_not_space {c : Char} (hw : isWordChar c = true) : pyIsSpace c = false := by
  cases h : pyIsSpace c
  · rfl
  · exfalso
    simp only [pyIsSpace, Bool.or_eq_true, decide_eq_true_eq] at h
    rcases h with ((((h | h) | h) | h) | h) | h <;> subst h <;> revert hw <;> decide

theorem dropWhile_eq_self_of {p : Char → Bool} {l : List Char}
    (h : ∀ c ∈ l, p c = false) : l.dropWhile p = l := by
  cases l with
  | nil => rfl
  | cons c cs =>
    rw [List.dropWhile_cons, if_neg]
    simp [h c (by simp)]

theorem mem_of_mem_stripL {c : Char} {l : List Char} (h : c ∈ stripL l) : c ∈ l := by
  unfold stripL at h
  rw [List.mem_reverse] at h
  have h2 := List.Sublist.subset (List.dropWhile_sublist pyIsSpace) h
  rw [List.mem_reverse] at h2
  exact List.Sublist.subset (List.dropWhile_sublist pyIsSpace) h2

theorem stripL_eq_self_of {l : List Char} (h : ∀ c ∈ l, pyIsSpace c = false) :
    stripL l = l := by
  unfold stripL
  rw [dropWhile_eq_self_of h, dropWhile_eq_self_of (fun c hc => h c (List.mem_reverse.mp hc)),
    List.reverse_reverse]

/-! ## General lemmas about dicts -/

theorem dictGet_dictSet_self (d : Dict) (k : String) (v : PyVal) :
    dictGet (dictSet d k v) k = some v := by
  induction d with
  | nil => simp [dictSet, dictGet]
  | cons p rest ih =>
    by_cases h : p.1 = k
    · simp [dictSet, dictGet, h]
    · simp [dictSet, dictGet, h, ih]

theorem dictGet_dictSet_ne (d : Dict) {k k2 : String} (v : PyVal) (h : k2 ≠ k) :
    dictGet (dictSet d k v) k2 = dictGet d k2 := by
  have hk : ¬(k = k2) := fun hh => h hh.symm
  induction d with
  | nil => simp [dictSet, dictGet, hk]
  | cons p rest ih =>
    by_cases hp : p.1 = k
    · subst hp
      simp [dictSet, dictGet, hk]
    · by_cases hp2 : p.1 = k2 <;> simp [dictSet, dictGet, hp, hp2, ih, h]

theorem strAppend_ne (b : String) {s t : String} (h : s.data ≠ t.data) :
    b ++ s ≠ b ++ t := by
  intro he
  apply h
  have hd := congrArg String.data he
  rw [String.data_append, String.data_append] at hd
  exact List.append_cancel_left hd

theorem digit_is_word {c : Char} (h : isDigitChar c = true) : isWordChar c = true := by
  simp [isWordChar, h]

/-! ## Lemmas about _parse_route_stats and processChurnValues -/

theorem prs_placeholder (d : Dict) (k : String) {t : String} (h : pyStrip t = "---") :
    _parse_route_stats d k t = .ok d := by
  simp [_parse_route_stats, h]

theorem prs_int (d : Dict) (k : String) {t : String} {v : Int}
    (hv : pyInt? t = some v) (hne : pyStrip t ≠ "---") :
    _parse_route_stats d k t = .ok (dictSet d k (.vInt v)) := by
  simp [_parse_route_stats, hne, hv]

theorem prs_ok_pres {d d2 : Dict} {k t : String}
    (h : _parse_route_stats d k t = .ok d2) {k2 : String}
    (hk : k2 ≠ k ∨ pyStrip t = "---") :
    dictGet d2 k2 = dictGet d k2 := by
  unfold _parse_route_stats at h
  by_cases hp : pyStrip t = "---"
  · simp [hp] at h
    rw [h]
  · rcases hk with hk | hk
    · cases hv : pyInt? t with
      | none => simp [hp, hv] at h
      | some v =>
        simp [hp, hv] at h
        rw [← h]
        exact dictGet_dictSet_ne d (.vInt v) hk
    · exact absurd hk hp

/-- A token accepted by decLit? is a nonempty run of digits, hence accepted
    unchanged by int() and distinct from the placeholder. -/
theorem decLit_props {t : String} {v : Int} (h : decLit? t = some v) :
    pyInt? t = some v ∧ pyStrip t ≠ "---" := by
  unfold decLit? at h
  split at h
  case isFalse => exact absurd h (by simp)
  case isTrue hc =>
    obtain ⟨hne, hall⟩ := hc
    injection h with hv
    have hdig : ∀ c ∈ t.data, isDigitChar c = true := by
      intro c hc2
      exact List.all_eq_true.mp hall c hc2
    have hnospace : ∀ c ∈ t.data, pyIsSpace c = false :=
      fun c hc2 => word_not_space (digit_is_word (hdig c hc2))
    have hstrip : stripL t.data = t.data := stripL_eq_self_of hnospace
    constructor
    · unfold pyInt?
      rw [hstrip]
      rcases hd : t.data with _ | ⟨c, cs⟩
      · exact absurd hd hne
      · have hcd : isDigitChar c = true := hdig c (by rw [hd]; simp)
        have hplus : c ≠ '+' := by intro e; rw [e] at hcd; exact absurd hcd (by decide)
        have hminus : c ≠ '-' := by intro e; rw [e] at hcd; exact absurd hcd (by decide)
        have hallcs : (c :: cs).all isDigitChar = true := by rw [← hd]; exact hall
        simp only [hplus, hminus, hallcs, if_false, if_true, reduceIte]
        rw [← hd, hv]
    · intro he
      have hdata : t.data = "---".data := by
        have h2 := congrArg String.data he
        rw [show (pyStrip t).data = stripL t.data from rfl, hstrip] at h2
        exact h2
      have := hdig '-' (by rw [hdata]; decide)
      exact absurd this (by decide)

theorem pcv_ok_pres {d0 d : Dict} {base t0 t1 t2 t3 t4 : String}
    (h : processChurnValues d0 base t0 t1 t2 t3 t4 = .ok d) (k : String)
    (h0 : k ≠ base ++ "_received" ∨ pyStrip t0 = "---")
    (h1 : k ≠ base ++ "_rejected" ∨ pyStrip t1 = "---")
    (h2 : k ≠ base ++ "_filtered" ∨ pyStrip t2 = "---")
    (h3 : k ≠ base ++ "_ignored" ∨ pyStrip t3 = "---")
    (h4 : k ≠ base ++ "_accepted" ∨ pyStrip t4 = "---") :
    dictGet d k = dictGet d0 k := by
  unfold processChurnValues at h
  split at h
  · exact absurd h (by simp)
  next d1 e0 =>
  split at h
  · exact absurd h (by simp)
  next d2 e1 =>
  split at h
  · exact absurd h (by simp)
  next d3 e2 =>
  split at h
  · exact absurd h (by simp)
  next d4 e3 =>
  calc dictGet d k = dictGet d4 k := prs_ok_pres h h4
    _ = dictGet d3 k := prs_ok_pres e3 h3
    _ = dictGet d2 k := prs_ok_pres e2 h2
    _ = dictGet d1 k := prs_ok_pres e1 h1
    _ = dictGet d0 k := prs_ok_pres e0 h0

/-! ## Claim theorems -/

/-- C1: the claim says an HH:MM token strictly later than the time-of-day of
    now always resolves to yesterday at that time.  The code compares
    now.hour <= hour AND now.minute < minute instead of comparing the two
    times of day, so for now = 10:30 the token 14:10 (strictly later in the
    day) is NOT moved back and the code returns a future instant, today
    14:10.  The two examples of the spec (14:50 against 10:00 and against
    20:00) do hold. -/
theorem claim_C1_code_eval :
    _calculate_datetime ⟨2020, 6, 15, 10, 30⟩ "14:10" = .ok ⟨2020, 6, 15, 14, 10⟩ ∧
    _calculate_datetime ⟨2020, 6, 15, 10, 0⟩ "14:50" = .ok ⟨2020, 6, 14, 14, 50⟩ ∧
    _calculate_datetime ⟨2020, 6, 15, 20, 0⟩ "14:50" = .ok ⟨2020, 6, 15, 14, 50⟩ :=
  ⟨rfl, rfl, rfl⟩

/-- C2: the claim says Jun13 against now = May 1 of year Y resolves to
    June 13 of year Y-1, and that Feb29 parses without error in non-leap
    years.  In the code the year subtraction is written
    result_date - timedelta(years=1), and datetime.timedelta has no years
    keyword, so that branch raises TypeError; and for Feb29 in a non-leap
    current year the datetime(now.year, 2, 29) call raises ValueError, which
    is caught and falls through to the can-not-parse error.  The Dec 1
    example, which needs no subtraction, does hold. -/
theorem claim_C2_code_eval :
    _calculate_datetime ⟨2020, 5, 1, 10, 0⟩ "Jun13" = .error .typeTimedeltaYears ∧
    _calculate_datetime ⟨2020, 12, 1, 10, 0⟩ "Jun13" = .ok ⟨2020, 6, 13, 0, 0⟩ ∧
    _calculate_datetime ⟨2021, 3, 1, 10, 0⟩ "Feb29" = .error (.valueCannotParseDatetime "Feb29") :=
  ⟨rfl, rfl, rfl⟩

/-- C5: the claim says a final detail block terminated by end of input
    rather than a blank line is consumed without an exception.  The inner
    while loop of _parse_peer_data advances with an unguarded
    lineiterator.next(), so when the input ends inside a block a
    StopIteration escapes to the caller; the same input with a terminating
    blank line parses normally. -/
theorem claim_C5_code_eval :
    _parse_peer_data ⟨2021, 12, 1, 23, 59⟩
      ("1002-PS1      BGP      T_PS1    start  14:50       Established\n" ++
       "1006-  Description: no trailing blank line") true = .error .stopIteration ∧
    _parse_peer_data ⟨2021, 12, 1, 23, 59⟩
      ("1002-PS1      BGP      T_PS1    start  14:50       Established\n" ++
       "1006-  Description: no trailing blank line\n\n") true =
      .ok [[("name", .vStr "PS1"), ("protocol", .vStr "BGP"),
            ("last_change", .vDateTime ⟨2021, 12, 1, 14, 50⟩),
            ("state", .vStr "Established"), ("up", .vBool true)]] :=
  ⟨rfl, rfl⟩

/-- C10: the peer-name sanitizer _clean_input is idempotent and its output
    contains only characters from [A-Za-z0-9_].  The regex substitution
    removes every non-word character, after which str.strip finds no
    whitespace to remove, so a second application changes nothing. -/
theorem claim_C10 (s : String) :
    _clean_input (_clean_input s) = _clean_input s ∧
    ∀ c ∈ (_clean_input s).data, isWordChar c = true := by
  have hword : ∀ c ∈ (_clean_input s).data, isWordChar c = true := by
    intro c hc
    exact (List.mem_filter.mp (mem_of_mem_stripL hc)).2
  refine ⟨?_, hword⟩
  have h1 : (stripL (s.data.filter isWordChar)).filter isWordChar =
      stripL (s.data.filter isWordChar) :=
    List.filter_eq_self.mpr (fun c hc => (List.mem_filter.mp (mem_of_mem_stripL hc)).2)
  show (⟨stripL ((stripL (s.data.filter isWordChar)).filter isWordChar)⟩ : String) =
    ⟨stripL (s.data.filter isWordChar)⟩
  rw [h1, stripL_eq_self_of
    (fun c hc => word_not_space (List.mem_filter.mp (mem_of_mem_stripL hc)).2)]

/-- C10 witness: a concrete evaluation of the sanitizer together with an
    application of the membership conjunct at a concrete character. -/
theorem claim_C10_witness :
    _clean_input (_clean_input " pe er-A.1! ") = _clean_input " pe er-A.1! " ∧
    isWordChar 'p' = true :=
  ⟨(claim_C10 " pe er-A.1! ").1, (claim_C10 " pe er-A.1! ").2 'p' (by decide)⟩

/-- C9 counterexample: the claim says every summary line of fewer than 6
    whitespace-separated columns yields a record with state and up null
    rather than an error, but a four-column line raises IndexError, because
    only the elements[5] access is guarded by try/except while elements[4]
    is read unprotected. -/
theorem claim_C9_cex :
    _parse_peer_summary ⟨2021, 12, 1, 23, 59⟩ "PS1 BGP T_PS1 start" = .error .indexError :=
  rfl

/-- C9 amended: a summary line of exactly 5 columns (one fewer than 6, the
    state column missing) whose timestamp token normalizes successfully
    yields a record with state and up null rather than an error; a line of
    fewer than 5 columns raises IndexError. -/
theorem claim_C9_amended :
    (∀ (now : DateTime) (line n p c2 c3 ts : String) (lc : DateTime),
        wsSplitS line = [n, p, c2, c3, ts] →
        _calculate_datetime now ts = .ok lc →
        _parse_peer_summary now line =
          .ok [("name", .vStr n), ("protocol", .vStr p), ("last_change", .vDateTime lc),
               ("state", .vNone), ("up", .vNone)]) ∧
    (∀ (now : DateTime) (line : String), (wsSplitS line).length < 5 →
        _parse_peer_summary now line = .error .indexError) := by
  constructor
  · intro now line n p c2 c3 ts lc hsplit hts
    simp [_parse_peer_summary, hsplit, hts]
  · intro now line h
    rcases hl : wsSplitS line with _ | ⟨a, _ | ⟨b, _ | ⟨c, _ | ⟨d, _ | ⟨e, tl⟩⟩⟩⟩⟩
    · simp [_parse_peer_summary, hl]
    · simp [_parse_peer_summary, hl]
    · simp [_parse_peer_summary, hl]
    · simp [_parse_peer_summary, hl]
    · simp [_parse_peer_summary, hl]
    · rw [hl] at h
      simp at h
      omega

/-- C9 witness: both conjuncts of the amended claim at concrete lines, the
    first a five-column line parsed to a record with null state and up, the
    second a two-column line raising IndexError. -/
theorem claim_C9_witness :
    _parse_peer_summary ⟨2021, 12, 1, 23, 59⟩ "PS1 BGP T_PS1 start 14:50" =
      .ok [("name", .vStr "PS1"), ("protocol", .vStr "BGP"),
           ("last_change", .vDateTime ⟨2021, 12, 1, 14, 50⟩),
           ("state", .vNone), ("up", .vNone)] ∧
    _parse_peer_summary ⟨2021, 12, 1, 23, 59⟩ "x y" = .error .indexError :=
  ⟨claim_C9_amended.1 ⟨2021, 12, 1, 23, 59⟩ "PS1 BGP T_PS1 start 14:50"
      "PS1" "BGP" "T_PS1" "start" "14:50" ⟨2021, 12, 1, 14, 50⟩ rfl rfl,
   claim_C9_amended.2 ⟨2021, 12, 1, 23, 59⟩ "x y" (by decide)⟩

/-- C3 counterexample: the claim says column 3 of the code-stripped summary
    line is the timestamp token handed to the normalizer.  On a line whose
    columns 3 and 4 are both valid clock-time tokens, the produced
    last_change is the normalization of column 4 (22:22), not of column 3
    (11:11), so the claim is false. -/
theorem claim_C3_cex :
    _parse_peer_summary ⟨2020, 6, 15, 23, 0⟩ "p1 BGP tbl 11:11 22:22 Established" =
      .ok [("name", .vStr "p1"), ("protocol", .vStr "BGP"),
           ("last_change", .vDateTime ⟨2020, 6, 15, 22, 22⟩),
           ("state", .vStr "Established"), ("up", .vBool true)] ∧
    _calculate_datetime ⟨2020, 6, 15, 23, 0⟩ "11:11" = .ok ⟨2020, 6, 15, 11, 11⟩ ∧
    (⟨2020, 6, 15, 22, 22⟩ : DateTime) ≠ ⟨2020, 6, 15, 11, 11⟩ :=
  ⟨rfl, rfl, by decide⟩

/-- C3 amended: the summary parser splits the code-stripped line on runs of
    whitespace and takes column 0 as name, column 1 as protocol, column 4 as
    the timestamp token passed to the normalizer (columns 2 and 3 are the
    unused table and state-word columns), and column 5, when present, as the
    state token; up is true iff the state token, case-folded, equals
    established. -/
theorem claim_C3_amended (now : DateTime) (line n p c2 c3 ts : String) (rest : List String)
    (hsplit : wsSplitS line = n :: p :: c2 :: c3 :: ts :: rest) :
    _parse_peer_summary now line =
      match _calculate_datetime now ts with
      | .error e => .error e
      | .ok lc =>
        .ok [("name", .vStr n), ("protocol", .vStr p), ("last_change", .vDateTime lc),
             ("state", match rest.head? with | some st => PyVal.vStr st | none => PyVal.vNone),
             ("up", match rest.head? with
                    | some st => PyVal.vBool (pyLower st = "established")
                    | none => PyVal.vNone)] := by
  simp only [_parse_peer_summary, hsplit]

/-- C3 witness: the amended claim applied to a concrete six-column line. -/
theorem claim_C3_witness :
    _parse_peer_summary ⟨2020, 6, 15, 23, 0⟩ "PS1 BGP T_PS1 start 14:50 Established" =
      match _calculate_datetime ⟨2020, 6, 15, 23, 0⟩ "14:50" with
      | .error e => .error e
      | .ok lc =>
        .ok [("name", .vStr "PS1"), ("protocol", .vStr "BGP"),
             ("last_change", .vDateTime lc),
             ("state", match ["Established"].head? with
                       | some st => PyVal.vStr st | none => PyVal.vNone),
             ("up", match ["Established"].head? with
                    | some st => PyVal.vBool (pyLower st = "established")
                    | none => PyVal.vNone)] :=
  claim_C3_amended ⟨2020, 6, 15, 23, 0⟩ "PS1 BGP T_PS1 start 14:50 Established"
    "PS1" "BGP" "T_PS1" "start" "14:50" ["Established"] rfl

/-- C6: for a route-churn row whose value is five whitespace-separated
    tokens, a placeholder token in position k produces no entry in the
    counters mapping under the key for that position, and a row of five
    decimal integer tokens produces exactly the five keys base_received,
    base_rejected, base_filtered, base_ignored, base_accepted bound to the
    integers of the row. -/
theorem claim_C6 (base value t0 t1 t2 t3 t4 : String)
    (_hbase : base ∈ ["import_updates", "import_withdraws", "export_updates", "export_withdraws"])
    (hsplit : wsSplitS value = [t0, t1, t2, t3, t4]) :
    (∀ d, churnRowStep [] base value = .ok d →
       (t0 = "---" → dictGet d (base ++ "_received") = none) ∧
       (t1 = "---" → dictGet d (base ++ "_rejected") = none) ∧
       (t2 = "---" → dictGet d (base ++ "_filtered") = none) ∧
       (t3 = "---" → dictGet d (base ++ "_ignored") = none) ∧
       (t4 = "---" → dictGet d (base ++ "_accepted") = none)) ∧
    (∀ v0 v1 v2 v3 v4 : Int,
       decLit? t0 = some v0 → decLit? t1 = some v1 → decLit? t2 = some v2 →
       decLit? t3 = some v3 → decLit? t4 = some v4 →
       churnRowStep [] base value = .ok
         [(base ++ "_received", .vInt v0), (base ++ "_rejected", .vInt v1),
          (base ++ "_filtered", .vInt v2), (base ++ "_ignored", .vInt v3),
          (base ++ "_accepted", .vInt v4)]) := by
  constructor
  · intro d hok
    unfold churnRowStep at hok
    rw [hsplit] at hok
    have hok2 : processChurnValues [] base t0 t1 t2 t3 t4 = .ok d := hok
    refine ⟨fun hph => ?_, fun hph => ?_, fun hph => ?_, fun hph => ?_, fun hph => ?_⟩
    · exact (pcv_ok_pres hok2 (base ++ "_received")
        (.inr (by rw [hph]; rfl)) (.inl (strAppend_ne base (by decide)))
        (.inl (strAppend_ne base (by decide))) (.inl (strAppend_ne base (by decide)))
        (.inl (strAppend_ne base (by decide)))).trans rfl
    · exact (pcv_ok_pres hok2 (base ++ "_rejected")
        (.inl (strAppend_ne base (by decide))) (.inr (by rw [hph]; rfl))
        (.inl (strAppend_ne base (by decide))) (.inl (strAppend_ne base (by decide)))
        (.inl (strAppend_ne base (by decide)))).trans rfl
    · exact (pcv_ok_pres hok2 (base ++ "_filtered")
        (.inl (strAppend_ne base (by decide))) (.inl (strAppend_ne base (by decide)))
        (.inr (by rw [hph]; rfl)) (.inl (strAppend_ne base (by decide)))
        (.inl (strAppend_ne base (by decide)))).trans rfl
    · exact (pcv_ok_pres hok2 (base ++ "_ignored")
        (.inl (strAppend_ne base (by decide))) (.inl (strAppend_ne base (by decide)))
        (.inl (strAppend_ne base (by decide))) (.inr (by rw [hph]; rfl))
        (.inl (strAppend_ne base (by decide)))).trans rfl
    · exact (pcv_ok_pres hok2 (base ++ "_accepted")
        (.inl (strAppend_ne base (by decide))) (.inl (strAppend_ne base (by decide)))
        (.inl (strAppend_ne base (by decide))) (.inl (strAppend_ne base (by decide)))
        (.inr (by rw [hph]; rfl))).trans rfl
  · intro v0 v1 v2 v3 v4 h0 h1 h2 h3 h4
    obtain ⟨hi0, hn0⟩ := decLit_props h0
    obtain ⟨hi1, hn1⟩ := decLit_props h1
    obtain ⟨hi2, hn2⟩ := decLit_props h2
    obtain ⟨hi3, hn3⟩ := decLit_props h3
    obtain ⟨hi4, hn4⟩ := decLit_props h4
    have n01 : ¬(base ++ "_received" = base ++ "_rejected") := strAppend_ne base (by decide)
    have n02 : ¬(base ++ "_received" = base ++ "_filtered") := strAppend_ne base (by decide)
    have n03 : ¬(base ++ "_received" = base ++ "_ignored") := strAppend_ne base (by decide)
    have n04 : ¬(base ++ "_received" = base ++ "_accepted") := strAppend_ne base (by decide)
    have n12 : ¬(base ++ "_rejected" = base ++ "_filtered") := strAppend_ne base (by decide)
    have n13 : ¬(base ++ "_rejected" = base ++ "_ignored") := strAppend_ne base (by decide)
    have n14 : ¬(base ++ "_rejected" = base ++ "_accepted") := strAppend_ne base (by decide)
    have n23 : ¬(base ++ "_filtered" = base ++ "_ignored") := strAppend_ne base (by decide)
    have n24 : ¬(base ++ "_filtered" = base ++ "_accepted") := strAppend_ne base (by decide)
    have n34 : ¬(base ++ "_ignored" = base ++ "_accepted") := strAppend_ne base (by decide)
    have e0 : _parse_route_stats [] (base ++ "_received") t0 =
        .ok [(base ++ "_received", .vInt v0)] := by
      rw [prs_int _ _ hi0 hn0]
      rfl
    have e1 : _parse_route_stats [(base ++ "_received", .vInt v0)] (base ++ "_rejected") t1 =
        .ok [(base ++ "_received", .vInt v0), (base ++ "_rejected", .vInt v1)] := by
      rw [prs_int _ _ hi1 hn1]
      simp [dictSet, n01]
    have e2 : _parse_route_stats
        [(base ++ "_received", .vInt v0), (base ++ "_rejected", .vInt v1)]
        (base ++ "_filtered") t2 =
        .ok [(base ++ "_received", .vInt v0), (base ++ "_rejected", .vInt v1),
             (base ++ "_filtered", .vInt v2)] := by
      rw [prs_int _ _ hi2 hn2]
      simp [dictSet, n02, n12]
    have e3 : _parse_route_stats
        [(base ++ "_received", .vInt v0), (base ++ "_rejected", .vInt v1),
         (base ++ "_filtered", .vInt v2)] (base ++ "_ignored") t3 =
        .ok [(base ++ "_received", .vInt v0), (base ++ "_rejected", .vInt v1),
             (base ++ "_filtered", .vInt v2), (base ++ "_ignored", .vInt v3)] := by
      rw [prs_int _ _ hi3 hn3]
      simp [dictSet, n03, n13, n23]
    have e4 : _parse_route_stats
        [(base ++ "_received", .vInt v0), (base ++ "_rejected", .vInt v1),
         (base ++ "_filtered", .vInt v2), (base ++ "_ignored", .vInt v3)]
        (base ++ "_accepted") t4 =
        .ok [(base ++ "_received", .vInt v0), (base ++ "_rejected", .vInt v1),
             (base ++ "_filtered", .vInt v2), (base ++ "_ignored", .vInt v3),
             (base ++ "_accepted", .vInt v4)] := by
      rw [prs_int _ _ hi4 hn4]
      simp [dictSet, n04, n14, n24, n34]
    unfold churnRowStep
    rw [hsplit]
    show processChurnValues [] base t0 t1 t2 t3 t4 = _
    simp only [processChurnValues, e0, e1, e2, e3, e4]

/-- C6 witness: the placeholder conjunct at a concrete row with the
    placeholder in the filtered position, and the all-numeric conjunct at a
    concrete fully numeric row. -/
theorem claim_C6_witness :
    dictGet [("import_updates_received", PyVal.vInt 50),
             ("import_updates_rejected", PyVal.vInt 3),
             ("import_updates_ignored", PyVal.vInt 0),
             ("import_updates_accepted", PyVal.vInt 7)] "import_updates_filtered" = none ∧
    churnRowStep [] "export_updates" "1 2 3 4 5" =
      .ok [("export_updates_received", .vInt 1), ("export_updates_rejected", .vInt 2),
           ("export_updates_filtered", .vInt 3), ("export_updates_ignored", .vInt 4),
           ("export_updates_accepted", .vInt 5)] :=
  ⟨((claim_C6 "import_updates" "50 3 --- 0 7" "50" "3" "---" "0" "7" (by decide) rfl).1
      [("import_updates_received", PyVal.vInt 50), ("import_updates_rejected", PyVal.vInt 3),
       ("import_updates_ignored", PyVal.vInt 0), ("import_updates_accepted", PyVal.vInt 7)]
      rfl).2.2.1 rfl,
   (claim_C6 "export_updates" "1 2 3 4 5" "1" "2" "3" "4" "5" (by decide) rfl).2
      1 2 3 4 5 rfl rfl rfl rfl rfl⟩

/-- An error raised while processing one line of a detail block aborts the
    whole block parse with that error: no partial dict is returned. -/
theorem detail_go_error_prop :
    ∀ (pre : List String) (d d2 : Dict) (line : String) (post : List String) (e : PyErr),
      _parse_peer_detail.go d pre = .ok d2 →
      processDetailLine d2 line = .error e →
      _parse_peer_detail.go d (pre ++ line :: post) = .error e := by
  intro pre
  induction pre with
  | nil =>
    intro d d2 line post e hok herr
    have hd : d = d2 := by
      simpa [_parse_peer_detail.go] using hok
    subst hd
    simp [_parse_peer_detail.go, herr]
  | cons l ls ih =>
    intro d d2 line post e hok herr
    simp only [List.cons_append, _parse_peer_detail.go] at hok ⊢
    split at hok
    · exact absurd hok (by simp)
    next d3 hpl =>
      exact ih d3 d2 line post e hok herr

/-- C8 counterexample: the claim says a route-churn token that is neither
    the placeholder nor a non-negative decimal integer causes a fatal parse
    error, but int() accepts a signed literal, so the token -1 is stored
    without any error. -/
theorem claim_C8_cex :
    _parse_peer_detail ["Import updates: -1 0 0 0 0"] =
      .ok [("import_updates_received", .vInt (-1)), ("import_updates_rejected", .vInt 0),
           ("import_updates_filtered", .vInt 0), ("import_updates_ignored", .vInt 0),
           ("import_updates_accepted", .vInt 0)] :=
  rfl

/-- C8 amended: a routes line whose value nowhere matches
    int-imported-comma-int-exported raises a fatal IndexError (which does
    not name the field or the raw value); a route-churn row without exactly
    five whitespace-separated tokens raises a fatal unpack ValueError; a
    churn token that is neither the placeholder nor an optionally signed
    decimal integer accepted by int() raises a fatal invalid-int ValueError
    naming the raw token; and an error on any detail line aborts the block
    parse, so no partial result is returned. -/
theorem claim_C8_amended :
    (∀ (d : Dict) (value : String), routesSearch value.data = none →
        routesStep d value = .error .indexError) ∧
    (∀ (d : Dict) (base value : String) (l : List String), wsSplitS value = l →
        l.length ≠ 5 → churnRowStep d base value = .error (.valueUnpack l.length)) ∧
    (∀ (d : Dict) (key tok : String), pyStrip tok ≠ "---" → pyInt? tok = none →
        _parse_route_stats d key tok = .error (.valueInvalidInt tok)) ∧
    (∀ (pre : List String) (d : Dict) (line : String) (post : List String) (e : PyErr),
        _parse_peer_detail pre = .ok d → processDetailLine d line = .error e →
        _parse_peer_detail (pre ++ line :: post) = .error e) := by
  refine ⟨?_, ?_, ?_, ?_⟩
  · intro d value h
    simp [routesStep, h]
  · intro d base value l hl hlen
    unfold churnRowStep
    rw [hl]
    rcases l with _ | ⟨a, _ | ⟨b, _ | ⟨c, _ | ⟨d0, _ | ⟨e0, _ | ⟨f, tl⟩⟩⟩⟩⟩⟩
    · rfl
    · rfl
    · rfl
    · rfl
    · rfl
    · exact absurd rfl hlen
    · rfl
  · intro d key tok hne hint
    simp [_parse_route_stats, hne, hint]
  · intro pre d line post e hok herr
    exact detail_go_error_prop pre [] d line post e hok herr

/-- C8 witness: the four conjuncts of the amended claim at concrete inputs:
    a routes value with no match, a three-token churn row, a non-integer
    churn token, and an error on the second line of a block that contains an
    already parsed first line. -/
theorem claim_C8_witness :
    routesStep [] "twenty imported, 3 exported" = .error .indexError ∧
    churnRowStep [] "import_updates" "1 2 3" = .error (.valueUnpack 3) ∧
    _parse_route_stats [] "import_updates_received" "zz" = .error (.valueInvalidInt "zz") ∧
    _parse_peer_detail
      (["Routes: 1 imported, 2 exported"] ++ "Import updates: zz 0 0 0 0" :: ["Neighbor ID: x"]) =
      .error (.valueInvalidInt "zz") :=
  ⟨claim_C8_amended.1 [] "twenty imported, 3 exported" rfl,
   claim_C8_amended.2.1 [] "import_updates" "1 2 3" ["1", "2", "3"] rfl (by decide),
   claim_C8_amended.2.2.1 [] "import_updates_received" "zz" (by decide) rfl,
   claim_C8_amended.2.2.2 ["Routes: 1 imported, 2 exported"]
     [("routes_imported", .vInt 1), ("routes_exported", .vInt 2)]
     "Import updates: zz 0 0 0 0" ["Neighbor ID: x"] (.valueInvalidInt "zz") rfl rfl⟩


/-- The Response invariant of the spec: name present, protocol BGP,
    last_change present. -/
def SummaryOK (d : Dict) : Prop :=
  (∃ s, dictGet d "name" = some (.vStr s)) ∧
  dictGet d "protocol" = some (.vStr "BGP") ∧
  (∃ t, dictGet d "last_change" = some (.vDateTime t))

/-- The exact shape of a pending BGP summary dict. -/
def BGPShape (ps : Dict) : Prop :=
  ∃ n lc st up, ps = [("name", .vStr n), ("protocol", .vStr "BGP"),
    ("last_change", .vDateTime lc), ("state", st), ("up", up)]

theorem summary_shape {now : DateTime} {line : String} {d : Dict}
    (h : _parse_peer_summary now line = .ok d) :
    ∃ n p lc st up, d = [("name", .vStr n), ("protocol", .vStr p),
      ("last_change", .vDateTime lc), ("state", st), ("up", up)] := by
  rcases hl : wsSplitS line with _ | ⟨n, _ | ⟨p, _ | ⟨c2, _ | ⟨c3, _ | ⟨ts, rest⟩⟩⟩⟩⟩ <;>
    simp [_parse_peer_summary, hl] at h
  rcases hc : _calculate_datetime now ts with e | lc <;> simp [hc] at h
  exact ⟨n, p, lc, _, _, h.symm⟩

theorem bgp_shape_of_guard {now : DateTime} {line : String} {ps : Dict}
    (h : _parse_peer_summary now line = .ok ps)
    (hg : dictGet ps "protocol" = some (.vStr "BGP")) : BGPShape ps := by
  obtain ⟨n, p, lc, st, up, rfl⟩ := summary_shape h
  have : p = "BGP" := by
    simp [dictGet] at hg
    exact hg
  subst this
  exact ⟨n, lc, st, up, rfl⟩

theorem merged_SummaryOK {det ps : Dict} (hps : BGPShape ps) :
    SummaryOK (dictUpdate det ps) := by
  obtain ⟨n, lc, st, up, rfl⟩ := hps
  show SummaryOK (dictSet (dictSet (dictSet (dictSet (dictSet det "name" (.vStr n))
    "protocol" (.vStr "BGP")) "last_change" (.vDateTime lc)) "state" st) "up" up)
  refine ⟨⟨n, ?_⟩, ?_, ⟨lc, ?_⟩⟩
  · rw [dictGet_dictSet_ne _ _ (by decide), dictGet_dictSet_ne _ _ (by decide),
      dictGet_dictSet_ne _ _ (by decide), dictGet_dictSet_ne _ _ (by decide),
      dictGet_dictSet_self]
  · rw [dictGet_dictSet_ne _ _ (by decide), dictGet_dictSet_ne _ _ (by decide),
      dictGet_dictSet_ne _ _ (by decide), dictGet_dictSet_self]
  · rw [dictGet_dictSet_ne _ _ (by decide), dictGet_dictSet_ne _ _ (by decide),
      dictGet_dictSet_self]

theorem parseLoop_ok_inv :
    ∀ (lines : List String) (now : DateTime) (flag : Bool) (st : LoopState)
      (acc peers : List Dict),
      parseLoop now flag lines st acc = .ok peers →
      (∀ ps blk, st = .inBlock ps blk → BGPShape ps) →
      (∀ ps, st = .scanning (some ps) → BGPShape ps) →
      (∀ p ∈ acc, SummaryOK p) →
      ∀ p ∈ peers, SummaryOK p := by
  intro lines
  induction lines with
  | nil =>
    intro now flag st acc peers h hblk hpend hacc
    cases st with
    | scanning pending =>
      simp only [parseLoop, Except.ok.injEq] at h
      subst h
      exact hacc
    | inBlock ps blk => simp [parseLoop] at h
  | cons l rest ih =>
    intro now flag st acc peers h hblk hpend hacc
    cases st with
    | inBlock ps blk =>
      have hshape : BGPShape ps := hblk ps blk rfl
      simp only [parseLoop] at h
      by_cases hb : pyStrip l = ""
      · rw [if_pos hb] at h
        rcases hd : _parse_peer_detail blk.reverse with e | det <;> simp only [hd] at h
        · exact absurd h (by simp)
        · refine ih now flag _ _ peers h (by intro a b heq; exact absurd heq (by simp))
            (by intro a heq; simp at heq) ?_
          intro p hp
          rcases List.mem_append.mp hp with hp | hp
          · exact hacc p hp
          · rw [List.mem_singleton] at hp
            subst hp
            exact merged_SummaryOK hshape
      · rw [if_neg hb] at h
        refine ih now flag _ _ peers h ?_ (by intro a heq; exact absurd heq (by simp)) hacc
        intro a b heq
        injection heq with h1 h2
        subst h1
        exact hshape
    | scanning pending =>
      simp only [parseLoop] at h
      split at h
      · exact ih now flag _ _ peers h (by intro a b heq; exact absurd heq (by simp)) hpend hacc
      split at h
      · -- field 1002
        split at h
        · exact absurd h (by simp)
        next ps hsum =>
          split at h
          next hguard =>
            split at h
            · refine ih now flag _ _ peers h (by intro a b heq; exact absurd heq (by simp))
                ?_ hacc
              intro a heq
              injection heq with h1
              injection h1 with h2
              subst h2
              exact bgp_shape_of_guard hsum hguard
            · exact absurd h (by simp)
          · exact ih now flag _ _ peers h (by intro a b heq; exact absurd heq (by simp))
              (by intro a heq; injection heq with h1; exact absurd h1 (by simp)) hacc
      split at h
      · exact absurd h (by simp)
      split at h
      · -- field 1006
        split at h
        next hpnone =>
          exact ih now flag _ _ peers h (by intro a b heq; exact absurd heq (by simp))
            (by intro a heq; injection heq with h1; exact absurd h1 (by simp)) hacc
        next psv =>
          have hshape : BGPShape psv := hpend psv rfl
          split at h
          · split at h
            · exact absurd h (by simp)
            next det hdet =>
              refine ih now flag _ _ peers h (by intro a b heq; exact absurd heq (by simp))
                (by intro a heq; injection heq with h1; exact absurd h1 (by simp)) ?_
              intro p hp
              rcases List.mem_append.mp hp with hp | hp
              · exact hacc p hp
              · rw [List.mem_singleton] at hp
                subst hp
                exact merged_SummaryOK hshape
          · refine ih now flag _ _ peers h ?_ (by intro a heq; exact absurd heq (by simp)) hacc
            intro a b heq
            injection heq with h1 h2
            subst h1
            exact hshape
      · exact ih now flag _ _ peers h (by intro a b heq; exact absurd heq (by simp)) hpend hacc


theorem minusOneDay_err {dt : DateTime} {e : PyErr} (h : minusOneDay dt = .error e) :
    e = .overflowError := by
  unfold minusOneDay at h
  split at h
  · exact absurd h (by simp)
  split at h
  · exact absurd h (by simp)
  split at h
  · exact absurd h (by simp)
  injection h with h1
  exact h1.symm

theorem plainYear_err {v : String} {e : PyErr} (h : plainYear v = .error e) :
    e = .valueCannotParseDatetime v := by
  unfold plainYear at h
  split at h
  · split at h
    · exact absurd h (by simp)
    · injection h with h1
      exact h1.symm
  · injection h with h1
    exact h1.symm

theorem calc_err {now : DateTime} {v : String} {e : PyErr}
    (h : _calculate_datetime now v = .error e) :
    e = .typeTimedeltaYears ∨ e = .overflowError ∨ e = .valueCannotParseDatetime v := by
  unfold _calculate_datetime at h
  split at h
  · split at h
    · exact .inr (.inl (minusOneDay_err h))
    · exact absurd h (by simp)
  split at h
  · split at h
    · split at h
      · injection h with h1
        exact .inl h1.symm
      · exact absurd h (by simp)
    · exact .inr (.inr (plainYear_err h))
  · exact .inr (.inr (plainYear_err h))

theorem calc_err_ne {now : DateTime} {v : String} {e : PyErr}
    (h : _calculate_datetime now v = .error e) : e ≠ .valueNotOnePeer := by
  rcases calc_err h with h1 | h1 | h1 <;> subst h1 <;> simp

theorem summary_err_ne {now : DateTime} {line : String} {e : PyErr}
    (h : _parse_peer_summary now line = .error e) : e ≠ .valueNotOnePeer := by
  rcases hl : wsSplitS line with _ | ⟨n, _ | ⟨p, _ | ⟨c2, _ | ⟨c3, _ | ⟨ts, rest⟩⟩⟩⟩⟩ <;>
    simp [_parse_peer_summary, hl] at h <;>
    try (subst h; simp)
  rcases hc : _calculate_datetime now ts with e2 | lc <;> simp [hc] at h
  subst h
  exact calc_err_ne hc

theorem prs_err_ne {d : Dict} {k t : String} {e : PyErr}
    (h : _parse_route_stats d k t = .error e) : e ≠ .valueNotOnePeer := by
  unfold _parse_route_stats at h
  split at h
  · exact absurd h (by simp)
  split at h
  · exact absurd h (by simp)
  · injection h with h1
    subst h1
    simp

theorem pcv_err_ne {d0 : Dict} {base t0 t1 t2 t3 t4 : String} {e : PyErr}
    (h : processChurnValues d0 base t0 t1 t2 t3 t4 = .error e) : e ≠ .valueNotOnePeer := by
  unfold processChurnValues at h
  split at h
  next e2 he => injection h with h1; subst h1; exact prs_err_ne he
  split at h
  next e2 he => injection h with h1; subst h1; exact prs_err_ne he
  split at h
  next e2 he => injection h with h1; subst h1; exact prs_err_ne he
  split at h
  next e2 he => injection h with h1; subst h1; exact prs_err_ne he
  exact prs_err_ne h

theorem churnRowStep_err_ne {d : Dict} {base value : String} {e : PyErr}
    (h : churnRowStep d base value = .error e) : e ≠ .valueNotOnePeer := by
  unfold churnRowStep at h
  split at h
  · exact pcv_err_ne h
  · injection h with h1
    subst h1
    simp

theorem routesStep_err_ne {d : Dict} {value : String} {e : PyErr}
    (h : routesStep d value = .error e) : e ≠ .valueNotOnePeer := by
  unfold routesStep at h
  split at h
  · injection h with h1
    subst h1
    simp
  · exact absurd h (by simp)

theorem processDetailLine_err_ne {d : Dict} {line : String} {e : PyErr}
    (h : processDetailLine d line = .error e) : e ≠ .valueNotOnePeer := by
  unfold processDetailLine at h
  split at h
  · injection h with h1
    subst h1
    simp
  dsimp only at h
  split at h
  · exact routesStep_err_ne h
  split at h
  · exact churnRowStep_err_ne h
  split at h
  · exact absurd h (by simp)
  · exact absurd h (by simp)

theorem detail_go_err_ne :
    ∀ (ls : List String) (d : Dict) (e : PyErr),
      _parse_peer_detail.go d ls = .error e → e ≠ .valueNotOnePeer := by
  intro ls
  induction ls with
  | nil => intro d e h; exact absurd h (by simp [_parse_peer_detail.go])
  | cons l rest ih =>
    intro d e h
    simp only [_parse_peer_detail.go] at h
    split at h
    next e2 he => injection h with h1; subst h1; exact processDetailLine_err_ne he
    next d2 he => exact ih d2 e h

theorem detail_err_ne {ls : List String} {e : PyErr}
    (h : _parse_peer_detail ls = .error e) : e ≠ .valueNotOnePeer :=
  detail_go_err_ne ls [] e h

theorem parseLoop_err_ne :
    ∀ (lines : List String) (now : DateTime) (flag : Bool) (st : LoopState)
      (acc : List Dict) (e : PyErr),
      parseLoop now flag lines st acc = .error e → e ≠ .valueNotOnePeer := by
  intro lines
  induction lines with
  | nil =>
    intro now flag st acc e h
    cases st with
    | scanning pending => exact absurd h (by simp [parseLoop])
    | inBlock ps blk =>
      simp only [parseLoop] at h
      injection h with h1
      subst h1
      simp
  | cons l rest ih =>
    intro now flag st acc e h
    cases st with
    | inBlock ps blk =>
      simp only [parseLoop] at h
      split at h
      · split at h
        next e2 he => injection h with h1; subst h1; exact detail_err_ne he
        next det he => exact ih now flag _ _ e h
      · exact ih now flag _ _ e h
    | scanning pending =>
      simp only [parseLoop] at h
      split at h
      · exact ih now flag _ _ e h
      split at h
      · split at h
        next e2 he => injection h with h1; subst h1; exact summary_err_ne he
        next ps hsum =>
          split at h
          · split at h
            · exact ih now flag _ _ e h
            · injection h with h1
              subst h1
              simp
          · exact ih now flag _ _ e h
      split at h
      · injection h with h1
        subst h1
        simp
      split at h
      · split at h
        · exact ih now flag _ _ e h
        next psv =>
          split at h
          · split at h
            next e2 he => injection h with h1; subst h1; exact detail_err_ne he
            next det he => exact ih now flag _ _ e h
          · exact ih now flag _ _ e h
      · exact ih now flag _ _ e h

theorem parse_peer_data_err_ne {now : DateTime} {data : String} {flag : Bool} {e : PyErr}
    (h : _parse_peer_data now data flag = .error e) : e ≠ .valueNotOnePeer :=
  parseLoop_err_ne (splitLinesS data) now flag (.scanning none) [] e h

/-- C7: the single-peer query.  When parsing yields exactly one peer, that
    single record is returned bare (not wrapped in a sequence); when parsing
    yields zero or several peers, the explicit not-one-peer ValueError is
    raised, never an empty record and never the first of several; and that
    error value is distinct from every error the response parser itself can
    raise, since the parser never produces it. -/
theorem claim_C7 (now : DateTime) (data : String) (name : String) (hname : name ≠ "") :
    (∀ p, _parse_peer_data now data true = .ok [p] →
        get_peer_status now data (some name) = .ok (.one p)) ∧
    (∀ peers, _parse_peer_data now data true = .ok peers → peers.length ≠ 1 →
        get_peer_status now data (some name) = .error .valueNotOnePeer) ∧
    (∀ e, _parse_peer_data now data true = .error e →
        e ≠ .valueNotOnePeer ∧ get_peer_status now data (some name) = .error e) := by
  refine ⟨?_, ?_, ?_⟩
  · intro p hp
    simp [get_peer_status, hp, hname]
  · intro peers hp hlen
    rcases peers with _ | ⟨a, _ | ⟨b, tl⟩⟩
    · simp [get_peer_status, hp, hname]
    · exact absurd rfl hlen
    · simp [get_peer_status, hp, hname]
  · intro e hp
    exact ⟨parse_peer_data_err_ne hp, by simp [get_peer_status, hp]⟩

/-- C7 witness: the three conjuncts at concrete inputs: a one-peer response
    returns the bare record, an empty response raises the not-one-peer
    error, and a response that fails to parse propagates its distinct parse
    error. -/
theorem claim_C7_witness :
    get_peer_status ⟨2021, 12, 1, 23, 59⟩
      ("1002-PS9      BGP      T_PS9    start  14:50       Established\n" ++
       "1006-  Description: only peer\n\n") (some "PS9") =
      .ok (.one [("name", .vStr "PS9"), ("protocol", .vStr "BGP"),
                 ("last_change", .vDateTime ⟨2021, 12, 1, 14, 50⟩),
                 ("state", .vStr "Established"), ("up", .vBool true)]) ∧
    get_peer_status ⟨2021, 12, 1, 23, 59⟩ "0001 BIRD 1.3.3 ready.\n" (some "ghost") =
      .error .valueNotOnePeer ∧
    (PyErr.stopIteration ≠ PyErr.valueNotOnePeer ∧
     get_peer_status ⟨2021, 12, 1, 23, 59⟩
       ("1002-PS9      BGP      T_PS9    start  14:50       Established\n" ++
        "1006-  Description: unterminated") (some "PS9") = .error .stopIteration) :=
  ⟨(claim_C7 ⟨2021, 12, 1, 23, 59⟩
      ("1002-PS9      BGP      T_PS9    start  14:50       Established\n" ++
       "1006-  Description: only peer\n\n") "PS9" (by decide)).1
      [("name", .vStr "PS9"), ("protocol", .vStr "BGP"),
       ("last_change", .vDateTime ⟨2021, 12, 1, 14, 50⟩),
       ("state", .vStr "Established"), ("up", .vBool true)] rfl,
   (claim_C7 ⟨2021, 12, 1, 23, 59⟩ "0001 BIRD 1.3.3 ready.\n" "ghost" (by decide)).2.1
      [] rfl (by decide),
   (claim_C7 ⟨2021, 12, 1, 23, 59⟩
      ("1002-PS9      BGP      T_PS9    start  14:50       Established\n" ++
       "1006-  Description: unterminated") "PS9" (by decide)).2.2 .stopIteration rfl⟩

/-- A line carrying no line-break character, so that joining lines with \n
    and splitting the text again is the identity. -/
def noNL (l : String) : Prop := ∀ c ∈ l.data, c ≠ '\n' ∧ c ≠ '\x0d'

instance (l : String) : Decidable (noNL l) :=
  inferInstanceAs (Decidable (∀ c ∈ l.data, c ≠ '\n' ∧ c ≠ '\x0d'))

/-- The text of a response emitted as newline-terminated lines. -/
def linesText : List String → String
  | [] => ""
  | l :: ls => l ++ "\n" ++ linesText ls

theorem splitLinesGo_concat {cs : List Char} (h : ∀ c ∈ cs, c ≠ '\n' ∧ c ≠ '\x0d')
    (acc rest : List Char) :
    splitLinesGo false acc (cs ++ '\n' :: rest) =
      (acc.reverse ++ cs) :: splitLinesGo false [] rest := by
  induction cs generalizing acc with
  | nil =>
    show splitLinesGo false acc ('\n' :: rest) = _
    rw [splitLinesGo]
    simp
  | cons c cs2 ih =>
    obtain ⟨hn, hr⟩ := h c (by simp)
    show splitLinesGo false acc (c :: (cs2 ++ '\n' :: rest)) = _
    rw [splitLinesGo]
    simp only [Bool.false_and, Bool.false_eq_true, if_false, if_neg hr, if_neg hn]
    rw [ih (fun c2 hc2 => h c2 (by simp [hc2])) (c :: acc)]
    simp

theorem splitLinesS_linesText (ls : List String) (h : ∀ l ∈ ls, noNL l) :
    splitLinesS (linesText ls) = ls := by
  induction ls with
  | nil => rfl
  | cons l ls2 ih =>
    show splitLinesS (l ++ "\n" ++ linesText ls2) = l :: ls2
    unfold splitLinesS
    have hdata : (l ++ "\n" ++ linesText ls2).data = l.data ++ '\n' :: (linesText ls2).data := by
      rw [String.data_append, String.data_append]
      simp
    rw [hdata, splitLinesGo_concat (h l (by simp)) [] (linesText ls2).data]
    simp only [List.reverse_nil, List.nil_append, List.map_cons]
    rw [show ({ data := l.data } : String) = l from rfl]
    show l :: splitLinesS (linesText ls2) = l :: ls2
    rw [ih (fun l2 hl2 => h l2 (by simp [hl2]))]

/-- A line that the scanning loop passes over without changing state: its
    field code is neither the summary code 1002 nor the detail code 1006
    (ignored codes and code-free lines included). -/
def inertLine (l : String) : Prop :=
  (_extract_field_number (pyStrip l)).1 ≠ some 1002 ∧
  (_extract_field_number (pyStrip l)).1 ≠ some 1006

instance (l : String) : Decidable (inertLine l) :=
  inferInstanceAs (Decidable ((_extract_field_number (pyStrip l)).1 ≠ some 1002 ∧
    (_extract_field_number (pyStrip l)).1 ≠ some 1006))

theorem inert_step {l : String} (h : inertLine l) (now : DateTime) (rest : List String)
    (pending : Option Dict) (acc : List Dict) :
    parseLoop now true (l :: rest) (.scanning pending) acc =
      parseLoop now true rest (.scanning pending) acc := by
  obtain ⟨h2, h6⟩ := h
  cases pending with
  | none =>
    conv_lhs => rw [parseLoop]
    simp only [if_neg h2, if_neg h6, Bool.not_true, Bool.false_eq_true, if_false]
    split
    · rfl
    · rfl
  | some p0 =>
    conv_lhs => rw [parseLoop]
    simp only [if_neg h2, if_neg h6, Bool.not_true, Bool.false_eq_true, if_false]
    split
    · rfl
    · rfl

theorem inert_run {ls : List String} (h : ∀ l ∈ ls, inertLine l) (now : DateTime)
    (rest : List String) (pending : Option Dict) (acc : List Dict) :
    parseLoop now true (ls ++ rest) (.scanning pending) acc =
      parseLoop now true rest (.scanning pending) acc := by
  induction ls with
  | nil => rfl
  | cons l ls2 ih =>
    show parseLoop now true (l :: (ls2 ++ rest)) (.scanning pending) acc = _
    rw [inert_step (h l (by simp)) now (ls2 ++ rest) pending acc,
      ih (fun l2 hl2 => h l2 (by simp [hl2]))]

theorem scan_step_1002 {now : DateTime} {l : String} {ps : Dict}
    (h1 : (_extract_field_number (pyStrip l)).1 = some 1002)
    (hps : _parse_peer_summary now (_extract_field_number (pyStrip l)).2 = .ok ps)
    (rest : List String) (pending : Option Dict) (acc : List Dict) :
    parseLoop now true (l :: rest) (.scanning pending) acc =
      (if dictGet ps "protocol" = some (.vStr "BGP") then
        parseLoop now true rest (.scanning (some ps)) acc
      else parseLoop now true rest (.scanning none) acc) := by
  cases pending with
  | none =>
    conv_lhs => rw [parseLoop]
    rw [h1]
    split
    next hig => exact absurd hig (by decide)
    next => simp only [reduceIte, hps]
  | some p0 =>
    conv_lhs => rw [parseLoop]
    rw [h1]
    split
    next hig => exact absurd hig (by decide)
    next => simp only [reduceIte, hps]

theorem scan_step_1006_none {now : DateTime} {l : String}
    (h6 : (_extract_field_number (pyStrip l)).1 = some 1006)
    (rest : List String) (acc : List Dict) :
    parseLoop now true (l :: rest) (.scanning none) acc =
      parseLoop now true rest (.scanning none) acc := by
  conv_lhs => rw [parseLoop]
  rw [h6]
  rfl

theorem scan_step_1006_some {now : DateTime} {l : String} {ps : Dict}
    (h6 : (_extract_field_number (pyStrip l)).1 = some 1006)
    (hcl : pyStrip (_extract_field_number (pyStrip l)).2 ≠ "")
    (rest : List String) (acc : List Dict) :
    parseLoop now true (l :: rest) (.scanning (some ps)) acc =
      parseLoop now true rest (.inBlock ps [(_extract_field_number (pyStrip l)).2]) acc := by
  conv_lhs => rw [parseLoop]
  rw [h6]
  simp only [if_neg hcl]
  rfl

theorem inBlock_run {now : DateTime} (blk : List String)
    (hblk : ∀ b ∈ blk, pyStrip b ≠ "") {bl : String} (hbl : pyStrip bl = "")
    (blkRev : List String) {det : Dict}
    (hdet : _parse_peer_detail (blkRev.reverse ++ blk) = .ok det)
    (rest : List String) (ps : Dict) (acc : List Dict) :
    parseLoop now true (blk ++ bl :: rest) (.inBlock ps blkRev) acc =
      parseLoop now true rest (.scanning none) (acc ++ [dictUpdate det ps]) := by
  induction blk generalizing blkRev with
  | nil =>
    show parseLoop now true (bl :: rest) (.inBlock ps blkRev) acc = _
    conv_lhs => rw [parseLoop]
    rw [if_pos hbl]
    rw [List.append_nil] at hdet
    simp only [hdet]
  | cons b bs ih =>
    show parseLoop now true (b :: (bs ++ bl :: rest)) (.inBlock ps blkRev) acc = _
    conv_lhs => rw [parseLoop]
    rw [if_neg (hblk b (by simp))]
    exact ih (fun b2 hb2 => hblk b2 (by simp [hb2])) (b :: blkRev)
      (by rw [List.reverse_cons, List.append_assoc]; simpa using hdet)

/-- One peer group of a well-formed daemon response: the 1002 summary line,
    the 1006 detail trigger line, the code-free continuation lines of the
    detail block, and the blank line terminating the block. -/
structure PeerGroup where
  summaryLine : String
  detailLine : String
  blockLines : List String
  blankLine : String

/-- The lines a peer group contributes to the response, in emission order. -/
def PeerGroup.render (g : PeerGroup) : List String :=
  g.summaryLine :: g.detailLine :: (g.blockLines ++ [g.blankLine])

def renderGroups : List PeerGroup → List String
  | [] => []
  | g :: gs => g.render ++ renderGroups gs

/-- Well-formedness of one peer group: no embedded line breaks, a parseable
    1002 summary line, a 1006 detail line with a nonempty remainder, code-free
    non-blank continuation lines, a blank terminator, and a parseable block. -/
def GroupWF (now : DateTime) (g : PeerGroup) : Prop :=
  noNL g.summaryLine ∧ noNL g.detailLine ∧ (∀ b ∈ g.blockLines, noNL b) ∧ noNL g.blankLine ∧
  (_extract_field_number (pyStrip g.summaryLine)).1 = some 1002 ∧
  (∃ ps, _parse_peer_summary now (_extract_field_number (pyStrip g.summaryLine)).2 = .ok ps) ∧
  (_extract_field_number (pyStrip g.detailLine)).1 = some 1006 ∧
  pyStrip (_extract_field_number (pyStrip g.detailLine)).2 ≠ "" ∧
  (∀ b ∈ g.blockLines, pyStrip b ≠ "" ∧ inertLine b) ∧
  pyStrip g.blankLine = "" ∧
  (∃ det, _parse_peer_detail
    ((_extract_field_number (pyStrip g.detailLine)).2 :: g.blockLines) = .ok det)

/-- Reference extraction written from the words of the claim: the BGP peers
    of the response, in the order emitted, each detail block merged with its
    summary; non-BGP groups contribute nothing. -/
def specBGPPeers (now : DateTime) : List PeerGroup → List Dict
  | [] => []
  | g :: gs =>
    match _parse_peer_summary now (_extract_field_number (pyStrip g.summaryLine)).2 with
    | .error _ => specBGPPeers now gs
    | .ok ps =>
      if dictGet ps "protocol" = some (.vStr "BGP") then
        match _parse_peer_detail
            ((_extract_field_number (pyStrip g.detailLine)).2 :: g.blockLines) with
        | .error _ => specBGPPeers now gs
        | .ok det => dictUpdate det ps :: specBGPPeers now gs
      else specBGPPeers now gs

theorem parseLoop_groups (gs : List PeerGroup) (now : DateTime) (acc : List Dict)
    (hwf : ∀ g ∈ gs, GroupWF now g) :
    parseLoop now true (renderGroups gs) (.scanning none) acc =
      .ok (acc ++ specBGPPeers now gs) := by
  induction gs generalizing acc with
  | nil =>
    show parseLoop now true [] (.scanning none) acc = _
    simp [parseLoop, specBGPPeers]
  | cons g gs2 ih =>
    obtain ⟨_, _, _, _, h1002, ⟨ps, hps⟩, h1006, hcl, hblk, hblank, det, hdet⟩ :=
      hwf g (by simp)
    have hrender : renderGroups (g :: gs2) =
        g.summaryLine :: g.detailLine :: (g.blockLines ++ g.blankLine :: renderGroups gs2) := by
      show g.render ++ renderGroups gs2 = _
      simp [PeerGroup.render]
    rw [hrender, scan_step_1002 h1002 hps]
    by_cases hbgp : dictGet ps "protocol" = some (.vStr "BGP")
    · rw [if_pos hbgp, scan_step_1006_some h1006 hcl,
        inBlock_run g.blockLines (fun b hb => (hblk b hb).1) hblank
          [(_extract_field_number (pyStrip g.detailLine)).2] (by simpa using hdet)
          (renderGroups gs2) ps acc,
        ih _ (fun g2 hg2 => hwf g2 (List.mem_cons_of_mem g hg2))]
      conv_rhs => rw [specBGPPeers]
      simp only [hps, if_pos hbgp, hdet, List.append_assoc, List.singleton_append]
    · rw [if_neg hbgp, scan_step_1006_none h1006,
        inert_run (fun b hb => (hblk b hb).2) now (g.blankLine :: renderGroups gs2) none acc]
      have hblankinert : inertLine g.blankLine := by
        constructor <;>
          (rw [show _extract_field_number (pyStrip g.blankLine) =
                _extract_field_number "" by rw [hblank]]
           simp [_extract_field_number])
      rw [show g.blankLine :: renderGroups gs2 = [g.blankLine] ++ renderGroups gs2 from rfl,
        inert_run (by intro x hx; rw [List.mem_singleton] at hx; subst hx; exact hblankinert)
          now (renderGroups gs2) none acc,
        ih _ (fun g2 hg2 => hwf g2 (List.mem_cons_of_mem g hg2))]
      conv_rhs => rw [specBGPPeers]
      simp only [hps, if_neg hbgp]

theorem renderGroups_noNL {now : DateTime} :
    ∀ (gs : List PeerGroup), (∀ g ∈ gs, GroupWF now g) →
      ∀ l ∈ renderGroups gs, noNL l := by
  intro gs
  induction gs with
  | nil =>
    intro _ l hl
    exact absurd hl (by simp [renderGroups])
  | cons g gs2 ih =>
    intro hwf l hl
    obtain ⟨hs, hd, hb, hbl, _⟩ := hwf g (by simp)
    rw [show renderGroups (g :: gs2) = g.render ++ renderGroups gs2 from rfl] at hl
    rcases List.mem_append.mp hl with h1 | h1
    · simp only [PeerGroup.render, List.mem_cons, List.mem_append,
        List.mem_singleton, List.not_mem_nil, or_false] at h1
      rcases h1 with rfl | rfl | h1 | rfl
      · exact hs
      · exact hd
      · exact hb l h1
      · exact hbl
    · exact ih (fun g2 hg2 => hwf g2 (List.mem_cons_of_mem g hg2)) l h1

/-- C4 counterexample: the claim promises, for every input text holding both
    BGP and non-BGP protocol summaries, exactly the BGP peers in the result.
    On an input with a non-BGP summary and a BGP summary whose detail block
    never arrives, the all-peers query returns the empty list: the pending
    BGP summary is silently dropped at end of input, so the BGP peer PS1
    (whose summary parses to a BGP record, second conjunct) is missing. -/
theorem claim_C4_cex :
    get_peer_status ⟨2021, 12, 1, 23, 59⟩
      ("1002-device1  Device   master   up     14:07\n" ++
       "1002-PS1      BGP      T_PS1    start  14:50       Established\n") none =
      .ok (.all []) ∧
    _parse_peer_summary ⟨2021, 12, 1, 23, 59⟩
      "PS1      BGP      T_PS1    start  14:50       Established" =
      .ok [("name", .vStr "PS1"), ("protocol", .vStr "BGP"),
           ("last_change", .vDateTime ⟨2021, 12, 1, 14, 50⟩),
           ("state", .vStr "Established"), ("up", .vBool true)] :=
  ⟨rfl, rfl⟩

/-- C4 amended: every peer record returned by the all-peers query satisfies
    the Response invariant (name present, protocol BGP, last_change
    present), for every input text; and for every response that is a
    sequence of well-formed peer groups (each a parseable 1002 summary line
    followed by its blank-line-terminated 1006 detail block), with any mix
    of BGP and non-BGP protocols, the all-peers query returns exactly the
    BGP peers, in the order the daemon emitted them, each summary merged
    with its parsed detail block; a BGP summary not followed by its detail
    block is dropped. -/
theorem claim_C4_amended :
    (∀ (now : DateTime) (data : String) (peers : List Dict),
        get_peer_status now data none = .ok (.all peers) →
        ∀ p ∈ peers, SummaryOK p) ∧
    (∀ (now : DateTime) (gs : List PeerGroup),
        (∀ g ∈ gs, GroupWF now g) →
        get_peer_status now (linesText (renderGroups gs)) none =
          .ok (.all (specBGPPeers now gs))) := by
  constructor
  · intro now data peers h
    have h2 : (match _parse_peer_data now data true with
               | .error e => (.error e : Except PyErr QueryResult)
               | .ok ps => .ok (.all ps)) = .ok (.all peers) := h
    rcases hp : _parse_peer_data now data true with e | ps <;> simp [hp] at h2
    unfold _parse_peer_data at hp
    have hinv := parseLoop_ok_inv (splitLinesS data) now true (.scanning none) [] ps hp
      (by intro a b heq; exact absurd heq (by simp))
      (by intro a heq; injection heq with h1; exact absurd h1 (by simp))
      (by intro p hp2; exact absurd hp2 (by simp))
    rw [← h2]
    exact hinv
  · intro now gs hwf
    have h1 : _parse_peer_data now (linesText (renderGroups gs)) true =
        .ok (specBGPPeers now gs) := by
      unfold _parse_peer_data
      rw [splitLinesS_linesText _ (renderGroups_noNL gs hwf)]
      simpa using parseLoop_groups gs now [] hwf
    simp [get_peer_status, h1]

/-- C4 witness: the invariant conjunct applied to a concrete one-peer
    response, and the exactly-the-BGP-peers conjunct applied to a concrete
    two-group response (one Device protocol group, one BGP group), returning
    exactly the BGP peer merged with its detail block. -/
theorem claim_C4_witness :
    SummaryOK [("name", .vStr "PS1"), ("protocol", .vStr "BGP"),
               ("last_change", .vDateTime ⟨2021, 12, 1, 14, 50⟩),
               ("state", .vStr "Established"), ("up", .vBool true)] ∧
    get_peer_status ⟨2021, 12, 1, 23, 59⟩
      (linesText (renderGroups
        [⟨"1002-device1  Device   master   up     14:07",
          "1006-  Description: device stuff", ["   Preference:     100"], ""⟩,
         ⟨"1002-PS1      BGP      T_PS1    start  14:50       Established",
          "1006-  Description: peer one",
          ["   Routes:         24 imported, 23 exported, 0 preferred",
           "   Import updates:             50          3          19         0          0"],
          ""⟩])) none =
      .ok (.all
        [[("routes_imported", .vInt 24), ("routes_exported", .vInt 23),
          ("import_updates_received", .vInt 50), ("import_updates_rejected", .vInt 3),
          ("import_updates_filtered", .vInt 19), ("import_updates_ignored", .vInt 0),
          ("import_updates_accepted", .vInt 0),
          ("name", .vStr "PS1"), ("protocol", .vStr "BGP"),
          ("last_change", .vDateTime ⟨2021, 12, 1, 14, 50⟩),
          ("state", .vStr "Established"), ("up", .vBool true)]]) :=
  ⟨claim_C4_amended.1 ⟨2021, 12, 1, 23, 59⟩
    ("1002-PS1      BGP      T_PS1    start  14:50       Established\n" ++
     "1006-  Description: one peer\n\n")
    [[("name", .vStr "PS1"), ("protocol", .vStr "BGP"),
      ("last_change", .vDateTime ⟨2021, 12, 1, 14, 50⟩),
      ("state", .vStr "Established"), ("up", .vBool true)]]
    rfl
    [("name", .vStr "PS1"), ("protocol", .vStr "BGP"),
     ("last_change", .vDateTime ⟨2021, 12, 1, 14, 50⟩),
     ("state", .vStr "Established"), ("up", .vBool true)]
    (by simp),
   (claim_C4_amended.2 ⟨2021, 12, 1, 23, 59⟩
     [⟨"1002-device1  Device   master   up     14:07",
       "1006-  Description: device stuff", ["   Preference:     100"], ""⟩,
      ⟨"1002-PS1      BGP      T_PS1    start  14:50       Established",
       "1006-  Description: peer one",
       ["   Routes:         24 imported, 23 exported, 0 preferred",
        "   Import updates:             50          3          19         0          0"],
       ""⟩]
     (by
       intro g hg
       simp only [List.mem_cons, List.mem_singleton, List.not_mem_nil, or_false] at hg
       rcases hg with rfl | rfl
       · exact ⟨by decide, by decide, by decide, by decide, rfl,
           ⟨[("name", .vStr "device1"), ("protocol", .vStr "Device"),
             ("last_change", .vDateTime ⟨2021, 12, 1, 14, 7⟩),
             ("state", .vNone), ("up", .vNone)], rfl⟩,
           rfl, by decide, by decide, rfl, ⟨[], rfl⟩⟩
       · exact ⟨by decide, by decide, by decide, by decide, rfl,
           ⟨[("name", .vStr "PS1"), ("protocol", .vStr "BGP"),
             ("last_change", .vDateTime ⟨2021, 12, 1, 14, 50⟩),
             ("state", .vStr "Established"), ("up", .vBool true)], rfl⟩,
           rfl, by decide, by decide, rfl,
           ⟨[("routes_imported", .vInt 24), ("routes_exported", .vInt 23),
             ("import_updates_received", .vInt 50), ("import_updates_rejected", .vInt 3),
             ("import_updates_filtered", .vInt 19), ("import_updates_ignored", .vInt 0),
             ("import_updates_accepted", .vInt 0)], rfl⟩⟩)).trans rfl⟩

end Pybird
